import Mathlib

/-!
Verification of the NouX agent-payment resolver core (src/resolver.ts).

The development shallowly embeds the resolver pipeline:
* the fixed-layout Borsh decoder `deserializePaymentRequirement`,
* the base-58 address encoder `encodeBase58`,
* the PDA seed construction (`SERVICE_TYPE_SEEDS` and the seed list),
* the TTL cache and the `resolve` orchestration.

Bytes are modelled as `List Nat` (each element a byte value below 256);
JavaScript numbers and BigInt values that stay non-negative are `Nat`.
Node Buffer reads that throw on out-of-range offsets are modelled as
`Option`-returning reads; the enclosing try/catch of the source becomes
`Option` propagation.
-/

namespace NouX

set_option maxRecDepth 40000

/-- Resolved view of a payment requirement, mirroring the `ResolvedAgent`
interface of resolver.ts (fields payTo, amount, tokenMint, active). -/
structure ResolvedAgent where
  payTo : String
  amount : String
  tokenMint : String
  active : Bool
deriving DecidableEq, Repr

/-- Cache entry, mirroring `CachedResult` of resolver.ts. -/
structure CachedResult where
  data : ResolvedAgent
  expiresAt : Nat
deriving DecidableEq, Repr

/-! ## Base58 encoding (resolver.ts lines 243-271) -/

/-- Bitcoin base58 alphabet, as the `BASE58_ALPHABET` constant of resolver.ts. -/
def BASE58_ALPHABET : String :=
  "123456789ABCDEFGHJKLMNPQRSTUVWXYZabcdefghijkmnopqrstuvwxyz"

/-- Indexing into the alphabet, `BASE58_ALPHABET[d]`. The default character is
irrelevant: every index actually used is a remainder modulo 58, hence in range. -/
def base58Char (d : Nat) : Char := BASE58_ALPHABET.data.getD d '?'

/-- The division loop of `encodeBase58`: while num > 0, prepend
`BASE58_ALPHABET[num % 58]` and divide num by 58. The list is built most
significant digit first, exactly as the unshift loop of the source. -/
def base58Loop (num : Nat) : List Char :=
  if h : num = 0 then []
  else base58Loop (num / 58) ++ [base58Char (num % 58)]
termination_by num
decreasing_by exact Nat.div_lt_self (Nat.pos_of_ne_zero h) (by norm_num)

/-- Leading-zero-byte count of `encodeBase58`: the loop that walks the bytes
until the first nonzero one. -/
def countLeadingZeroBytes (bytes : List Nat) : Nat :=
  (bytes.takeWhile (fun b => b == 0)).length

/-- The big-integer accumulation of `encodeBase58`:
`for (const b of bytes) num = num * 256n + BigInt(b)`. -/
def bytesToNum (bytes : List Nat) : Nat :=
  bytes.foldl (fun num b => num * 256 + b) 0

/-- Model of `encodeBase58` (resolver.ts lines 250-271): count leading zero
bytes, convert the whole byte array to a big integer, emit base-58 digits most
significant first, then prepend one leading one-symbol per leading zero byte. -/
def encodeBase58 (bytes : List Nat) : String :=
  String.mk (List.replicate (countLeadingZeroBytes bytes) '1' ++ base58Loop (bytesToNum bytes))

/-- Index of a character in the base58 alphabet, used only by the
re-derivation procedure below. -/
def base58DigitVal (c : Char) : Nat := List.indexOf c BASE58_ALPHABET.data

/-- Modelled from the spec: the manual re-derivation of the round-trip
property (count the leading one-symbols of the encoding as leading zero
bytes, read the remaining characters as base-58 digits of a big-endian
number, and lay that number out as big-endian bytes after the zeros).
This inverse procedure exists only in the spec, not in the source. -/
def decodeBase58 (s : String) : List Nat :=
  let cs := s.data
  let z := (cs.takeWhile (fun c => c == '1')).length
  let num := (cs.drop z).foldl (fun acc c => acc * 58 + base58DigitVal c) 0
  List.replicate z 0 ++ (Nat.digits 256 num).reverse

/-! ## Byte readers (Node Buffer semantics) -/

/-- Little-endian value of a byte list (first byte least significant). -/
def leBytesVal : List Nat → Nat
  | [] => 0
  | b :: rest => b + 256 * leBytesVal rest

/-- Model of `Buffer.readUInt32LE`: Node throws ERR_OUT_OF_RANGE when the
4-byte window does not fit, modelled as `none`. -/
def readUInt32LE (data : List Nat) (offset : Nat) : Option Nat :=
  if offset + 4 ≤ data.length then some (leBytesVal ((data.drop offset).take 4)) else none

/-- Model of `Buffer.readBigUInt64LE`: Node throws ERR_OUT_OF_RANGE when the
8-byte window does not fit, modelled as `none`. -/
def readBigUInt64LE (data : List Nat) (offset : Nat) : Option Nat :=
  if offset + 8 ≤ data.length then some (leBytesVal ((data.drop offset).take 8)) else none

/-- Model of `Buffer.subarray(start, stop)`: clamps silently, never throws. -/
def subarray (data : List Nat) (start stop : Nat) : List Nat :=
  (data.take stop).drop start

/-! ## The Borsh decoder (resolver.ts lines 169-228)

The source walks a cumulative offset:
8 (Anchor discriminator) + 32 (nft_mint) + 1 (service_type) + 1 (scheme) = 42,
amount u64 at 42, token_mint at 50..82, pay_to at 82..114, description length
prefix at 114, resource length prefix at 114 + 4 + descLen, active flag at
114 + 4 + descLen + 4 + resLen. The body sits in a try/catch that converts
any thrown range error into null; here the checked reads propagate `none`.
The JavaScript expression `data[offset] !== 0` evaluates to true when the
offset is out of range (indexing yields undefined), which the model renders
as `data.get? offset != some 0`. The external `address(...)` call of
@solana/kit merely validates and brands the base58 string produced by
`encodeBase58`, so the success path keeps the string unchanged. -/
def deserializePaymentRequirement (data : List Nat) : Option ResolvedAgent :=
  (readBigUInt64LE data 42).bind fun amount =>
  let tokenMintBytes := subarray data 50 82
  let payToBytes := subarray data 82 114
  (readUInt32LE data 114).bind fun descLen =>
  (readUInt32LE data (114 + 4 + descLen)).bind fun resLen =>
  let activeOffset := 114 + 4 + descLen + 4 + resLen
  let active := (data.get? activeOffset) != some 0
  some { payTo := encodeBase58 payToBytes
         amount := toString amount
         tokenMint := encodeBase58 tokenMintBytes
         active := active }

/-! ## Synthetic blob of the layout-correctness property -/

/-- Synthetic account blob: discriminator (8 zero bytes), subject (32 zero
bytes), category tag 0, scheme tag 0, amount 1000000 little endian,
asset address 0x01 repeated, recipient address 0x02 repeated, empty
description, empty resource, active byte 1. -/
def c1Blob : List Nat :=
  List.replicate 8 0 ++ List.replicate 32 0 ++ [0] ++ [0]
    ++ [64, 66, 15, 0, 0, 0, 0, 0]
    ++ List.replicate 32 1 ++ List.replicate 32 2
    ++ [0, 0, 0, 0] ++ [0, 0, 0, 0] ++ [1]

/-! ## Resolver orchestration (resolver.ts lines 18-23 and 48-237) -/

/-- Service type PDA seeds (resolver.ts lines 18-23): the fixed record maps
each known category name to its canonical seed string. -/
def SERVICE_TYPE_SEEDS (serviceType : String) : Option String :=
  if serviceType = "mcp" then some "mcp"
  else if serviceType = "a2a" then some "a2a"
  else if serviceType = "api" then some "api"
  else if serviceType = "web" then some "web"
  else none

/-- UTF-8 bytes of a string, the model of TextEncoder().encode. -/
def utf8Bytes (s : String) : List Nat := s.toUTF8.toList.map (fun b => b.toNat)

/-- Property names a plain object literal inherits from Object.prototype.
An index read with one of these names on the seed map yields the inherited
member, which is not nullish, so the nullish-coalescing fallback of the
source expression does not apply at these names. -/
def OBJECT_PROTOTYPE_MEMBERS : List String :=
  ["constructor", "hasOwnProperty", "isPrototypeOf", "propertyIsEnumerable",
   "toLocaleString", "toString", "valueOf", "__proto__",
   "__defineGetter__", "__defineSetter__", "__lookupGetter__", "__lookupSetter__"]

/-- Whether a name is inherited from Object.prototype. -/
def isObjectPrototypeMember (s : String) : Bool :=
  OBJECT_PROTOTYPE_MEMBERS.contains s

/-- Result of the JS index expression on the seed map: an own key hits its
seed string, an Object.prototype property name hits the inherited member,
and every other name reads as undefined. -/
inductive SeedLookup where
  | seed (s : String)
  | inheritedMember (name : String)
  | literal (s : String)
deriving DecidableEq, Repr

/-- Model of the source expression SERVICE_TYPE_SEEDS[serviceType] ??
serviceType (resolver.ts line 83): an own key yields its seed string; an
Object.prototype property name yields the inherited member, which is not
nullish, so the coalescing keeps it; any other name reads as undefined and
the coalescing falls back to the label itself. -/
def seedResolution (serviceType : String) : SeedLookup :=
  match SERVICE_TYPE_SEEDS serviceType with
  | some s => .seed s
  | none =>
    if isObjectPrototypeMember serviceType then .inheritedMember serviceType
    else .literal serviceType

/-- Seed text handed to TextEncoder().encode. In the inherited case the
encoder stringifies the inherited member; that host-defined text (the
source text of a native function, or the stringified prototype object) is
supplied as the parameter hostText. -/
def seedText (hostText : String → String) (serviceType : String) : String :=
  match seedResolution serviceType with
  | .seed s => s
  | .inheritedMember name => hostText name
  | .literal s => s

/-- Seed list passed to getProgramDerivedAddress (resolver.ts lines 83-93):
the constant record-kind tag, the raw bytes of the subject mint, then the
category seed text. The mint bytes come from the external address encoder
of @solana/kit and are therefore a parameter, as is the host
stringification used for inherited prototype members. -/
def derivationSeeds (hostText : String → String) (mintBytes : List Nat)
    (serviceType : String) : List (List Nat) :=
  [utf8Bytes "payment_req", mintBytes, utf8Bytes (seedText hostText serviceType)]

/-- Outcome of the external world for one resolution attempt: the derivation
step may throw, the rpc fetch may throw, the account may be missing, the
transport envelope may carry a non-string payload, or raw account bytes
arrive. -/
inductive ExtOutcome where
  | derivationFailure
  | transportFailure
  | notFound
  | nonStringData
  | accountBytes (data : List Nat)
deriving DecidableEq, Repr

/-- Resolver instance state: the in-memory cache map, the configured TTL in
milliseconds, and an instrumentation counter of rpc fetch invocations (the
fetch collaborator call count observed by the idempotence property). -/
structure ResolverState where
  cache : String → Option CachedResult
  cacheTtlMs : Nat
  fetchCount : Nat

/-- Composite cache key, the template literal agentMint ++ ":" ++ serviceType
of resolver.ts line 72. -/
def cacheKey (agentMint serviceType : String) : String :=
  agentMint ++ ":" ++ serviceType

/-- Cache probe of resolve (resolver.ts lines 74-78): serve only when an
entry is present and expiresAt > now. -/
def cacheLookup (st : ResolverState) (key : String) (now : Nat) : Option ResolvedAgent :=
  match st.cache key with
  | some cached => if cached.expiresAt > now then some cached.data else none
  | none => none

/-- Cache-miss path of resolve (resolver.ts lines 80-148): derive the PDA,
fetch the account, length-check and decode the data, store the result with a
fresh expiry. Every failure is caught and converted to none by the try/catch
of the source. A derivation failure throws before the rpc call, so it does
not touch the fetch counter. -/
def resolveMiss (st : ResolverState) (now : Nat) (ext : ExtOutcome) (key : String) :
    Option ResolvedAgent × ResolverState :=
  match ext with
  | .derivationFailure => (none, st)
  | .transportFailure => (none, { st with fetchCount := st.fetchCount + 1 })
  | .notFound => (none, { st with fetchCount := st.fetchCount + 1 })
  | .nonStringData => (none, { st with fetchCount := st.fetchCount + 1 })
  | .accountBytes data =>
    let st1 := { st with fetchCount := st.fetchCount + 1 }
    if data.length < 8 then (none, st1)
    else
      match deserializePaymentRequirement data with
      | none => (none, st1)
      | some result =>
        (some result,
         { st1 with
            cache := Function.update st1.cache key (some ⟨result, now + st.cacheTtlMs⟩) })

/-- Model of AgentResolver.resolve (resolver.ts lines 68-148): probe the
cache under the composite key, serve a fresh entry, otherwise run the miss
path against the external outcome of this call. -/
def resolve (st : ResolverState) (now : Nat) (ext : ExtOutcome)
    (agentMint serviceType : String) : Option ResolvedAgent × ResolverState :=
  match cacheLookup st (cacheKey agentMint serviceType) now with
  | some d => (some d, st)
  | none => resolveMiss st now ext (cacheKey agentMint serviceType)

/-- Call of resolve with the serviceType argument omitted: the source
signature declares serviceType: string = "a2a", so the omitted argument
takes that value. -/
def resolveDefault (st : ResolverState) (now : Nat) (ext : ExtOutcome)
    (agentMint : String) : Option ResolvedAgent × ResolverState :=
  resolve st now ext agentMint "a2a"

/-- Resolver state with an empty cache, TTL 30000 and a zero fetch counter. -/
def stEmpty : ResolverState := ⟨fun _ => none, 30000, 0⟩

/-- Stub record for the default-category counterexample. -/
def recStub : ResolvedAgent := ⟨"p", "1", "t", true⟩

/-- State whose cache holds an unexpired entry for the key of ("m", "a2a"). -/
def stC9 : ResolverState :=
  ⟨Function.update (fun _ => none) "m:a2a" (some ⟨recStub, 100⟩), 30000, 0⟩

/-- Record produced by decoding the all-zero 122-byte blob. -/
def recZero : ResolvedAgent :=
  ⟨encodeBase58 (List.replicate 32 0), "0", encodeBase58 (List.replicate 32 0), true⟩

/-- Blob whose description length prefix at offset 114 is 0xFFFFFFFF. -/
def blob122FF : List Nat :=
  List.replicate 114 0 ++ [255, 255, 255, 255] ++ [0, 0, 0, 0]

/-- All-zero blob of 122 bytes: both length prefixes are zero and the blob
ends exactly where the active byte would sit. -/
def blob122 : List Nat := List.replicate 122 0

set_option maxRecDepth 20000 in
/-- C1: decoding the synthetic blob yields amount "1000000", active true, and
tokenMint and payTo equal to the base-58 encodings of the 0x01-repeated and
0x02-repeated 32-byte patterns. -/
theorem c1_layout_correctness :
    deserializePaymentRequirement c1Blob =
      some { payTo := encodeBase58 (List.replicate 32 2)
             amount := "1000000"
             tokenMint := encodeBase58 (List.replicate 32 1)
             active := true } := by
  rfl

/-! ## Bounds safety of the decoder -/

/-- A successful decode needs at least the 8-byte window of the amount read. -/
lemma length_ge_of_deserialize_some {data : List Nat} {rec : ResolvedAgent}
    (h : deserializePaymentRequirement data = some rec) : 50 ≤ data.length := by
  by_contra hc
  have hnone : readBigUInt64LE data 42 = none := by
    simp only [readBigUInt64LE]
    rw [if_neg (by omega)]
  simp only [deserializePaymentRequirement, hnone, Option.none_bind] at h
  exact Option.noConfusion h

/-- C3: every blob shorter than the 40-byte minimum prefix decodes to the
absent result; in particular a 39-byte blob decodes to none without any
out-of-bounds fault, and a blob whose description length prefix is
0xFFFFFFFF decodes to none without reading past the end of the blob
(the checked read of the resource length prefix fails instead). -/
theorem c3_bounds_safety :
    (∀ data : List Nat, data.length < 40 → deserializePaymentRequirement data = none)
    ∧ deserializePaymentRequirement (List.replicate 39 0) = none
    ∧ (∀ data : List Nat, readUInt32LE data 114 = some 4294967295 →
        data.length < 114 + 4 + 4294967295 + 4 →
        deserializePaymentRequirement data = none) := by
  refine ⟨?_, ?_, ?_⟩
  · intro data h
    have hnone : readBigUInt64LE data 42 = none := by
      simp only [readBigUInt64LE]
      rw [if_neg (by omega)]
    simp only [deserializePaymentRequirement, hnone, Option.none_bind]
  · rfl
  · intro data h1 h2
    have h118 : 114 + 4 ≤ data.length := by
      by_contra hc
      simp only [readUInt32LE, if_neg hc] at h1
      exact Option.noConfusion h1
    have hA : readBigUInt64LE data 42 = some (leBytesVal ((data.drop 42).take 8)) := by
      simp only [readBigUInt64LE]
      rw [if_pos (by omega)]
    have hC : readUInt32LE data (114 + 4 + 4294967295) = none := by
      simp only [readUInt32LE]
      rw [if_neg (by omega)]
    simp only [deserializePaymentRequirement, hA, h1, hC, Option.some_bind, Option.none_bind]

/-- Witness for C3: the hypotheses of each universally quantified part are
satisfied at concrete blobs. -/
theorem c3_bounds_safety_witness :
    deserializePaymentRequirement [0] = none
    ∧ deserializePaymentRequirement blob122FF = none :=
  ⟨c3_bounds_safety.1 [0] (by decide),
   c3_bounds_safety.2.2 blob122FF (by decide) (by decide)⟩

/-- C10: when both length prefixes are internally consistent but the blob
ends exactly where the active flag byte would sit, the decoder still
succeeds and reports active = true, because the out-of-range byte read
yields an absent value that compares as nonzero. -/
theorem c10_missing_active_byte (data : List Nat) (descLen resLen : Nat)
    (hd : readUInt32LE data 114 = some descLen)
    (hr : readUInt32LE data (114 + 4 + descLen) = some resLen)
    (hlen : data.length = 114 + 4 + descLen + 4 + resLen) :
    ∃ rec, deserializePaymentRequirement data = some rec ∧ rec.active = true := by
  have h118 : 114 + 4 ≤ data.length := by
    by_contra hc
    simp only [readUInt32LE, if_neg hc] at hd
    exact Option.noConfusion hd
  have hA : readBigUInt64LE data 42 = some (leBytesVal ((data.drop 42).take 8)) := by
    simp only [readBigUInt64LE]
    rw [if_pos (by omega)]
  have hget : data.get? (114 + 4 + descLen + 4 + resLen) = none :=
    List.get?_eq_none.mpr (by omega)
  have hmain : deserializePaymentRequirement data =
      some { payTo := encodeBase58 (subarray data 82 114)
             amount := toString (leBytesVal ((data.drop 42).take 8))
             tokenMint := encodeBase58 (subarray data 50 82)
             active := true } := by
    simp only [deserializePaymentRequirement, hA, hd, hr, Option.some_bind, hget]
    rfl
  exact ⟨_, hmain, rfl⟩

/-- Witness for C10: the 122-byte all-zero blob satisfies the hypotheses. -/
theorem c10_missing_active_byte_witness :
    ∃ rec, deserializePaymentRequirement blob122 = some rec ∧ rec.active = true :=
  c10_missing_active_byte blob122 0 0 (by decide) (by decide) (by decide)

/-! ## Base58 round trip -/

/-- The division loop emits exactly the base-58 digits of the number, most
significant first. -/
lemma base58Loop_eq (n : Nat) :
    base58Loop n = ((Nat.digits 58 n).map base58Char).reverse := by
  induction n using Nat.strong_induction_on with
  | _ n ih =>
    by_cases h : n = 0
    · subst h
      simp [base58Loop]
    · rw [base58Loop, dif_neg h,
        ih (n / 58) (Nat.div_lt_self (Nat.pos_of_ne_zero h) (by norm_num)),
        Nat.digits_def' (by norm_num : (1 : Nat) < 58) (Nat.pos_of_ne_zero h)]
      simp

/-- Horner-style fold of most-significant-first digits, expressed through
Nat.ofDigits on the reversed (least-significant-first) list. -/
lemma foldl_mul_add_eq (b : Nat) :
    ∀ (l : List Nat) (a : Nat),
      l.foldl (fun acc d => acc * b + d) a = a * b ^ l.length + Nat.ofDigits b l.reverse
  | [], a => by simp
  | d :: t, a => by
    rw [List.foldl_cons, foldl_mul_add_eq b t (a * b + d), List.reverse_cons,
      Nat.ofDigits_append, Nat.ofDigits_singleton, List.length_reverse, List.length_cons,
      pow_succ]
    ring

/-- Folding the accumulation step over leading zero bytes keeps the
accumulator at zero. -/
lemma foldl_replicate_zero (z : Nat) :
    (List.replicate z 0).foldl (fun num b => num * 256 + b) 0 = 0 := by
  induction z with
  | zero => rfl
  | succ n ih =>
    rw [List.replicate_succ, List.foldl_cons]
    simpa using ih

/-- takeWhile walks past a block that satisfies the predicate throughout. -/
lemma takeWhile_append_all (p : α → Bool) :
    ∀ (l₁ l₂ : List α), (∀ x ∈ l₁, p x = true) →
      (l₁ ++ l₂).takeWhile p = l₁ ++ l₂.takeWhile p
  | [], _, _ => rfl
  | a :: t, l₂, h => by
    rw [List.cons_append, List.takeWhile_cons_of_pos (h a (List.mem_cons_self a t)),
      takeWhile_append_all p t l₂ (fun x hx => h x (List.mem_cons_of_mem a hx)),
      List.cons_append]

/-- The first byte surviving the leading-zero scan is nonzero. -/
lemma dropWhile_zero_head :
    ∀ (l : List Nat) (a : Nat) (t : List Nat),
      l.dropWhile (fun b => b == 0) = a :: t → a ≠ 0
  | [], _, _, h => by simp at h
  | x :: xs, a, t, h => by
    by_cases hx : x = 0
    · subst hx
      rw [List.dropWhile_cons_of_pos (by simp)] at h
      exact dropWhile_zero_head xs a t h
    · rw [List.dropWhile_cons_of_neg (by simp [hx])] at h
      cases h
      exact hx

/-- Only the digit zero renders as the leading symbol of the alphabet. -/
lemma base58Char_ne_one : ∀ d : Nat, d < 58 → d ≠ 0 → (base58Char d == '1') = false := by
  decide

/-- The alphabet index inverts the alphabet lookup on valid digits. -/
lemma base58DigitVal_char : ∀ d : Nat, d < 58 → base58DigitVal (base58Char d) = d := by
  decide

/-- The rendered digit block never starts with the leading symbol, so the
leading-symbol scan of the decoder stops exactly at the digit block. -/
lemma takeWhile_one_digits (n : Nat) :
    (((Nat.digits 58 n).map base58Char).reverse).takeWhile (fun c => c == '1') = [] := by
  by_cases h : n = 0
  · subst h
    simp
  · have hne : Nat.digits 58 n ≠ [] := Nat.digits_ne_nil_iff_ne_zero.mpr h
    obtain ⟨a, t, hat⟩ : ∃ a t, (Nat.digits 58 n).reverse = a :: t := by
      cases hr : (Nat.digits 58 n).reverse with
      | nil => exact absurd (List.reverse_eq_nil_iff.mp hr) hne
      | cons a t => exact ⟨a, t, rfl⟩
    have ha_mem : a ∈ Nat.digits 58 n := by
      have : a ∈ (Nat.digits 58 n).reverse := by
        rw [hat]
        exact List.mem_cons_self a t
      exact List.mem_reverse.mp this
    have ha_lt : a < 58 := Nat.digits_lt_base (by norm_num) ha_mem
    have ha_ne : a ≠ 0 := by
      have h1 : (Nat.digits 58 n).reverse.head? = (Nat.digits 58 n).getLast? :=
        List.head?_reverse _
      rw [hat, List.getLast?_eq_getLast _ hne] at h1
      injection h1 with h2
      rw [h2]
      exact Nat.getLast_digit_ne_zero 58 h
    rw [← List.map_reverse, hat, List.map_cons,
      List.takeWhile_cons_of_neg (by simp [base58Char_ne_one a ha_lt ha_ne])]

/-- C4: the base58 encoder is non-lossy. Encoding 32 zero bytes yields
exactly 32 leading one-symbols and nothing else, and for every byte array of
1 to 64 bytes, interpreting the leading one-symbols as leading zero bytes
and re-deriving the big-endian value of the remaining base-58 digits
reconstructs the original bytes. -/
theorem c4_base58_roundtrip :
    encodeBase58 (List.replicate 32 0) = "11111111111111111111111111111111"
    ∧ ∀ bytes : List Nat, 1 ≤ bytes.length → bytes.length ≤ 64 →
        (∀ b ∈ bytes, b < 256) → decodeBase58 (encodeBase58 bytes) = bytes := by
  constructor
  · have h1 : countLeadingZeroBytes (List.replicate 32 0) = 32 := by decide
    have h2 : bytesToNum (List.replicate 32 0) = 0 := by decide
    have h3 : base58Loop 0 = [] := by simp [base58Loop]
    rw [encodeBase58, h1, h2, h3, List.append_nil]
    rfl
  · intro bytes _ _ hlt
    have htw : bytes.takeWhile (fun b => b == 0)
        = List.replicate (countLeadingZeroBytes bytes) 0 := by
      rw [List.eq_replicate_iff]
      refine ⟨rfl, fun b hb => ?_⟩
      simpa using List.mem_takeWhile_imp hb
    have hsplit : bytes
        = List.replicate (countLeadingZeroBytes bytes) 0
          ++ bytes.dropWhile (fun b => b == 0) := by
      conv_lhs => rw [← List.takeWhile_append_dropWhile (fun b => b == 0) bytes]
      rw [htw]
    have hnum : bytesToNum bytes
        = Nat.ofDigits 256 (bytes.dropWhile (fun b => b == 0)).reverse := by
      rw [bytesToNum]
      conv_lhs => rw [hsplit]
      rw [List.foldl_append, foldl_replicate_zero, foldl_mul_add_eq]
      simp
    have hlt' : ∀ x ∈ (bytes.dropWhile (fun b => b == 0)).reverse, x < 256 := by
      intro x hx
      exact hlt x ((List.dropWhile_sublist (fun b => b == 0)).subset (List.mem_reverse.mp hx))
    have hlast : ∀ hne : (bytes.dropWhile (fun b => b == 0)).reverse ≠ [],
        (bytes.dropWhile (fun b => b == 0)).reverse.getLast hne ≠ 0 := by
      intro hne
      have hrne : bytes.dropWhile (fun b => b == 0) ≠ [] := by
        intro hr
        rw [hr] at hne
        exact hne rfl
      obtain ⟨a, t, hat⟩ : ∃ a t, bytes.dropWhile (fun b => b == 0) = a :: t := by
        cases hr : bytes.dropWhile (fun b => b == 0) with
        | nil => exact absurd hr hrne
        | cons a t => exact ⟨a, t, rfl⟩
      have ha : a ≠ 0 := dropWhile_zero_head bytes a t hat
      have h2 : (bytes.dropWhile (fun b => b == 0)).reverse.getLast? = some a := by
        rw [List.getLast?_reverse, hat]
        rfl
      rw [List.getLast?_eq_getLast _ hne] at h2
      injection h2 with h3
      rw [h3]
      exact ha
    have hdig : Nat.digits 256 (bytesToNum bytes)
        = (bytes.dropWhile (fun b => b == 0)).reverse := by
      rw [hnum]
      exact Nat.digits_ofDigits 256 (by norm_num) _ hlt' hlast
    have henc : (encodeBase58 bytes).data
        = List.replicate (countLeadingZeroBytes bytes) '1'
          ++ ((Nat.digits 58 (bytesToNum bytes)).map base58Char).reverse := by
      rw [encodeBase58, base58Loop_eq]
    have hdrop : List.drop (countLeadingZeroBytes bytes)
          (List.replicate (countLeadingZeroBytes bytes) '1'
            ++ ((Nat.digits 58 (bytesToNum bytes)).map base58Char).reverse)
        = ((Nat.digits 58 (bytesToNum bytes)).map base58Char).reverse := by
      have := List.drop_left (List.replicate (countLeadingZeroBytes bytes) '1')
        (((Nat.digits 58 (bytesToNum bytes)).map base58Char).reverse)
      rwa [List.length_replicate] at this
    have hcong : ∀ (a x : Nat), x ∈ (Nat.digits 58 (bytesToNum bytes)).reverse →
        a * 58 + base58DigitVal (base58Char x) = a * 58 + x := by
      intro a x hx
      rw [base58DigitVal_char x (Nat.digits_lt_base (by norm_num) (List.mem_reverse.mp hx))]
    have hfold : (((Nat.digits 58 (bytesToNum bytes)).map base58Char).reverse).foldl
          (fun acc c => acc * 58 + base58DigitVal c) 0 = bytesToNum bytes := by
      rw [← List.map_reverse, List.foldl_map, List.foldl_ext _ _ 0 hcong,
        foldl_mul_add_eq, List.reverse_reverse, Nat.ofDigits_digits]
      simp
    simp only [decodeBase58]
    rw [henc,
      takeWhile_append_all (fun c => c == '1') _ _
        (fun x hx => by rw [List.eq_of_mem_replicate hx]; rfl),
      takeWhile_one_digits, List.append_nil, List.length_replicate, hdrop, hfold, hdig,
      List.reverse_reverse]
    exact hsplit.symm

/-- Witness for C4: the round trip at a concrete three-byte input with a
leading zero byte. -/
theorem c4_base58_roundtrip_witness :
    decodeBase58 (encodeBase58 [0, 200, 7]) = [0, 200, 7] :=
  c4_base58_roundtrip.2 [0, 200, 7] (by decide) (by decide) (by decide)

/-! ## Fail-soft orchestration, TTL, idempotence, seeds, keys, default -/

/-- C2: resolve converts every failure of the derivation step, the fetch
step, or the decode step into the explicit absent result; no exception
escapes its boundary (the model is a total function into an option). -/
theorem c2_fail_soft (st : ResolverState) (now : Nat) (agentMint serviceType : String)
    (ext : ExtOutcome)
    (hmiss : cacheLookup st (cacheKey agentMint serviceType) now = none)
    (hfail : ext = .derivationFailure ∨ ext = .transportFailure ∨ ext = .notFound
      ∨ ext = .nonStringData
      ∨ ∃ data, ext = .accountBytes data
          ∧ (data.length < 8 ∨ deserializePaymentRequirement data = none)) :
    (resolve st now ext agentMint serviceType).1 = none := by
  rcases hfail with h | h | h | h | ⟨data, h, hdata⟩ <;> subst h <;> rw [resolve, hmiss]
  · rfl
  · rfl
  · rfl
  · rfl
  · rcases hdata with hlen | hdec
    · simp [resolveMiss, hlen]
    · by_cases hlen : data.length < 8
      · simp [resolveMiss, hlen]
      · simp [resolveMiss, hlen, hdec]

/-- Witness for C2: a cold cache and a missing account produce the absent
result. -/
theorem c2_fail_soft_witness : (resolve stEmpty 0 .notFound "m" "a2a").1 = none :=
  c2_fail_soft stEmpty 0 "m" "a2a" .notFound rfl (Or.inr (Or.inr (Or.inl rfl)))

/-- C5: with TTL 30000 and a successful store at time 0, the entry is served
strictly before its expiry (a lookup at 29999 returns the cached record and
leaves the state, hence the fetch counter, untouched) and not at 30001,
where the lookup misses and a fresh fetch runs. -/
theorem c5_ttl_boundary (st : ResolverState) (agentMint serviceType : String)
    (blob : List Nat) (rec : ResolvedAgent) (ext₂ : ExtOutcome)
    (httl : st.cacheTtlMs = 30000)
    (hmiss : cacheLookup st (cacheKey agentMint serviceType) 0 = none)
    (hdec : deserializePaymentRequirement blob = some rec) :
    (resolve st 0 (.accountBytes blob) agentMint serviceType).1 = some rec
    ∧ resolve ((resolve st 0 (.accountBytes blob) agentMint serviceType).2) 29999 ext₂
        agentMint serviceType
      = (some rec, (resolve st 0 (.accountBytes blob) agentMint serviceType).2)
    ∧ ((resolve ((resolve st 0 (.accountBytes blob) agentMint serviceType).2) 30001
        (.accountBytes blob) agentMint serviceType).2).fetchCount
      = ((resolve st 0 (.accountBytes blob) agentMint serviceType).2).fetchCount + 1 := by
  have hlen : ¬ blob.length < 8 := by
    have := length_ge_of_deserialize_some hdec
    omega
  have hst1 : resolve st 0 (.accountBytes blob) agentMint serviceType
      = (some rec,
         { cache := Function.update st.cache (cacheKey agentMint serviceType)
             (some ⟨rec, 0 + st.cacheTtlMs⟩)
           cacheTtlMs := st.cacheTtlMs
           fetchCount := st.fetchCount + 1 }) := by
    rw [resolve, hmiss]
    simp [resolveMiss, hlen, hdec]
  refine ⟨by rw [hst1], ?_, ?_⟩
  · rw [hst1, resolve]
    simp [cacheLookup, Function.update_same, httl]
  · rw [hst1, resolve]
    simp [cacheLookup, Function.update_same, httl, resolveMiss, hlen, hdec]

/-- Witness for C5: concrete cold state and the all-zero 122-byte blob. -/
theorem c5_ttl_boundary_witness :
    (resolve stEmpty 0 (.accountBytes blob122) "m" "a2a").1 = some recZero :=
  (c5_ttl_boundary stEmpty "m" "a2a" blob122 recZero .notFound rfl rfl rfl).1

/-- C6: two successive resolve calls with the same key and no intervening
cache expiry return the identical record, the second call leaves the state
untouched, and the fetch collaborator runs exactly once across the two
calls. -/
theorem c6_idempotence (st : ResolverState) (agentMint serviceType : String)
    (blob : List Nat) (rec : ResolvedAgent) (ext₂ : ExtOutcome) (t₁ t₂ : Nat)
    (hmiss : cacheLookup st (cacheKey agentMint serviceType) t₁ = none)
    (hdec : deserializePaymentRequirement blob = some rec)
    (hfresh : t₂ < t₁ + st.cacheTtlMs) :
    (resolve st t₁ (.accountBytes blob) agentMint serviceType).1 = some rec
    ∧ resolve ((resolve st t₁ (.accountBytes blob) agentMint serviceType).2) t₂ ext₂
        agentMint serviceType
      = (some rec, (resolve st t₁ (.accountBytes blob) agentMint serviceType).2)
    ∧ ((resolve st t₁ (.accountBytes blob) agentMint serviceType).2).fetchCount
      = st.fetchCount + 1 := by
  have hlen : ¬ blob.length < 8 := by
    have := length_ge_of_deserialize_some hdec
    omega
  have hst1 : resolve st t₁ (.accountBytes blob) agentMint serviceType
      = (some rec,
         { cache := Function.update st.cache (cacheKey agentMint serviceType)
             (some ⟨rec, t₁ + st.cacheTtlMs⟩)
           cacheTtlMs := st.cacheTtlMs
           fetchCount := st.fetchCount + 1 }) := by
    rw [resolve, hmiss]
    simp [resolveMiss, hlen, hdec]
  refine ⟨by rw [hst1], ?_, by rw [hst1]⟩
  rw [hst1, resolve]
  simp [cacheLookup, Function.update_same, hfresh]

/-- Witness for C6: concrete cold state, the all-zero 122-byte blob, and two
call times inside one TTL window. -/
theorem c6_idempotence_witness :
    (resolve stEmpty 5 (.accountBytes blob122) "m" "a2a").1 = some recZero :=
  (c6_idempotence stEmpty "m" "a2a" blob122 recZero .transportFailure 5 7 rfl rfl
    (by decide)).1

/-- Counterexample to C7: at the label "toString", which is none of the
four known names, the source lookup yields the inherited Object.prototype
member, not the literal label text, because the inherited member is not
nullish and the coalescing fallback never runs. -/
theorem c7_counterexample_prototype_lookup :
    seedResolution "toString" = SeedLookup.inheritedMember "toString"
    ∧ seedResolution "toString" ≠ SeedLookup.literal "toString"
    ∧ "toString" ≠ "mcp" ∧ "toString" ≠ "a2a" ∧ "toString" ≠ "api"
    ∧ "toString" ≠ "web" := by
  refine ⟨by decide, by decide, by decide, by decide, by decide, by decide⟩

/-- C7 amended: the storage-address derivation receives exactly three seed
segments in fixed order (record-kind tag, raw subject bytes, category
seed); the category seed comes from the four-entry mapping for the known
names mcp, a2a, api, web, and is the literal label text for every other
name that is not an inherited Object.prototype property name; at a
prototype property name the seed is the host stringification of the
inherited member instead. -/
theorem c7_seed_segments (hostText : String → String) (mintBytes : List Nat)
    (serviceType : String) :
    derivationSeeds hostText mintBytes serviceType
      = [utf8Bytes "payment_req", mintBytes, utf8Bytes (seedText hostText serviceType)]
    ∧ seedText hostText "mcp" = "mcp"
    ∧ seedText hostText "a2a" = "a2a"
    ∧ seedText hostText "api" = "api"
    ∧ seedText hostText "web" = "web"
    ∧ (∀ s : String, s ≠ "mcp" → s ≠ "a2a" → s ≠ "api" → s ≠ "web" →
        isObjectPrototypeMember s = false → seedText hostText s = s)
    ∧ (∀ s : String, s ≠ "mcp" → s ≠ "a2a" → s ≠ "api" → s ≠ "web" →
        isObjectPrototypeMember s = true → seedText hostText s = hostText s) := by
  refine ⟨rfl, rfl, rfl, rfl, rfl, ?_, ?_⟩
  · intro s h1 h2 h3 h4 hproto
    simp [seedText, seedResolution, SERVICE_TYPE_SEEDS, h1, h2, h3, h4, hproto]
  · intro s h1 h2 h3 h4 hproto
    simp [seedText, seedResolution, SERVICE_TYPE_SEEDS, h1, h2, h3, h4, hproto]

/-- Witness for C7: an unknown, non-prototype label passes through as its
own literal text, and the prototype label "valueOf" takes the host
stringification of the inherited member. -/
theorem c7_seed_segments_witness :
    seedText (fun _ => "native") "grpc" = "grpc"
    ∧ seedText (fun _ => "native") "valueOf" = "native" :=
  ⟨(c7_seed_segments (fun _ => "native") [] "grpc").2.2.2.2.2.1 "grpc"
      (by decide) (by decide) (by decide) (by decide) (by decide),
   (c7_seed_segments (fun _ => "native") [] "valueOf").2.2.2.2.2.2 "valueOf"
      (by decide) (by decide) (by decide) (by decide) (by decide)⟩

/-- Counterexample to C8: the cache key concatenation is not injective over
all text pairs, because the separator may occur inside the subject
identifier. -/
theorem c8_cache_key_not_injective :
    cacheKey "a:b" "c" = cacheKey "a" "b:c"
    ∧ (("a:b", "c") : String × String) ≠ ("a", "b:c") := by
  constructor
  · decide
  · decide

/-- Helper for C8: splitting at a separator absent from both left parts is
unambiguous. -/
lemma colon_append_inj :
    ∀ (l₁ l₂ r₁ r₂ : List Char), ':' ∉ l₁ → ':' ∉ l₂ →
      l₁ ++ ':' :: r₁ = l₂ ++ ':' :: r₂ → l₁ = l₂ ∧ r₁ = r₂
  | [], [], _, _, _, _, h => by
    cases h
    exact ⟨rfl, rfl⟩
  | [], c :: t, r₁, r₂, _, h₂, h => by
    rw [List.nil_append, List.cons_append] at h
    injection h with ha _
    exact absurd (ha ▸ List.mem_cons_self c t) h₂
  | c :: t, [], r₁, r₂, h₁, _, h => by
    rw [List.nil_append, List.cons_append] at h
    injection h with ha _
    exact absurd (ha ▸ List.mem_cons_self c t) h₁
  | c :: t, d :: u, r₁, r₂, h₁, h₂, h => by
    rw [List.cons_append, List.cons_append] at h
    injection h with ha hb
    obtain ⟨hl, hr⟩ := colon_append_inj t u r₁ r₂
      (fun hm => h₁ (List.mem_cons_of_mem c hm))
      (fun hm => h₂ (List.mem_cons_of_mem d hm)) hb
    exact ⟨by rw [ha, hl], hr⟩

/-- Helper: strings with equal character data are equal. -/
lemma stringDataEq {a b : String} (h : a.data = b.data) : a = b := by
  cases a
  cases b
  exact congrArg String.mk h

/-- C8 amended: the cache key is injective over pairs whose subject
identifier does not contain the separator, so resolving one pair never
serves the entry of a different pair in that domain. -/
theorem c8_amended_cache_key_injective (m₁ s₁ m₂ s₂ : String)
    (h₁ : ':' ∉ m₁.data) (h₂ : ':' ∉ m₂.data)
    (h : cacheKey m₁ s₁ = cacheKey m₂ s₂) : m₁ = m₂ ∧ s₁ = s₂ := by
  have hd : m₁.data ++ ':' :: s₁.data = m₂.data ++ ':' :: s₂.data := by
    have hdata : (cacheKey m₁ s₁).data = (cacheKey m₂ s₂).data := by rw [h]
    simpa [cacheKey, List.append_assoc] using hdata
  obtain ⟨hm, hs⟩ := colon_append_inj m₁.data m₂.data s₁.data s₂.data h₁ h₂ hd
  exact ⟨stringDataEq hm, stringDataEq hs⟩

/-- Witness for C8: the amended injectivity applies to colon-free subjects. -/
theorem c8_amended_witness : "x" = "x" ∧ "y" = "y" :=
  c8_amended_cache_key_injective "x" "y" "x" "y" (by decide) (by decide) rfl

/-- Counterexample to C9: a call with the category omitted serves the cache
entry of the key ending in a2a, while an explicit "default-category" call
misses that entry and resolves to the absent result, so the two calls are
not equivalent. -/
theorem c9_default_not_default_category :
    (resolveDefault stC9 0 .notFound "m").1 = some recStub
    ∧ (resolve stC9 0 .notFound "m" "default-category").1 = none := by
  constructor
  · rfl
  · rfl

/-- C9 amended: a call with the category argument omitted behaves exactly as
a call with the explicit category label "a2a". -/
theorem c9_amended_default_is_a2a (st : ResolverState) (now : Nat) (ext : ExtOutcome)
    (agentMint : String) :
    resolveDefault st now ext agentMint = resolve st now ext agentMint "a2a" := rfl

end NouX
